import Mathlib

/-!
Verification development for the aiops-data-collector pipeline:
the retrying HTTP transport, the two pagination strategies, the
entity-join engine, the tenant identity blob, and the processed cache.
Network effects are modelled by explicit oracles (functions from a
request key to the response) and by returning the list of requests a
function issued, so that call counts and call order are provable facts.
-/

namespace AiopsCollector

/-! ## Transport: retrying HTTP request (src/workers.py, def retryable) -/

/-- Outcome of one HTTP attempt: a successful response carrying a payload,
or a failure (HTTP error status or connection failure). -/
inductive HttpOutcome where
  | ok (resp : Nat)
  | err
deriving DecidableEq, Repr

/-- Retry budget, value taken from src/workers.py line 15. -/
def MAX_RETRIES : Nat := 3

/-- Error raised once every attempt has failed
(requests.HTTPError in src/workers.py line 45). -/
inductive TransportError where
  | exhausted
deriving DecidableEq, Repr

/-- The retry loop of src/workers.py lines 31-43: attempts are indexed from
`attempt`, at most `fuel` of them happen; the first component counts the
calls actually performed, the second is the result. -/
def retryLoop (oracle : Nat → HttpOutcome) : Nat → Nat → Nat × Except TransportError Nat
  | _, 0 => (0, Except.error TransportError.exhausted)
  | attempt, fuel + 1 =>
    match oracle attempt with
    | HttpOutcome.ok r => (1, Except.ok r)
    | HttpOutcome.err =>
      let rest := retryLoop oracle (attempt + 1) fuel
      (rest.1 + 1, rest.2)

/-- Shallow embedding of src/workers.py def retryable: run the loop from
attempt 0 with budget MAX_RETRIES. -/
def retryable (oracle : Nat → HttpOutcome) : Nat × Except TransportError Nat :=
  retryLoop oracle 0 MAX_RETRIES

/-! ## Count-based pagination (src/target_worker/host_inventory.py, def retrieveHosts) -/

/-- One page of the count-based collection API:
`{results, total, per_page}` as in src/target_worker/host_inventory.py. -/
structure CountPage where
  results : List Nat
  total : Nat
  per_page : Nat
deriving DecidableEq, Repr

/-- Ceiling division on naturals, embedding Python math.ceil(total / per_page)
at src/target_worker/host_inventory.py line 34. -/
def ceilDiv (a b : Nat) : Nat := (a + b - 1) / b

/-- Shallow embedding of src/target_worker/host_inventory.py lines 15-44:
request page 1, compute the page count, then loop for page in range(2, pages)
appending each page's results. The first component is the list of pages
requested, in request order; the second is the accumulated results. -/
def retrieveHosts (fetch : Nat → CountPage) : List Nat × List Nat :=
  let first := fetch 1
  let pages := ceilDiv first.total first.per_page
  let tail := List.range' 2 (pages - 2)
  (1 :: tail, tail.foldl (fun acc p => acc ++ (fetch p).results) first.results)

/-! ## Link-based pagination (collector topological_inventory, def collectData) -/

/-- Backend location `{host, path}` selected for a service, as passed to the
link-based fetcher. -/
structure Service where
  host : String
  path : String
deriving DecidableEq, Repr

/-- One response of the link-based collection API:
a data list and an optional next link. -/
structure LinkPage where
  data : List Nat
  next : Option String
deriving DecidableEq, Repr

/-- First URL of a link-based fetch: host/path/url, as exercised by
src/tests/collector/test_topological_inventory.py lines 86-93. -/
def entryUrl (service : Service) (path : String) : String :=
  service.host ++ "/" ++ service.path ++ "/" ++ path

/-- Modelled from the spec: the loop of the link-based strategy of
collector/topological_inventory.py (absent from src/, exercised by
src/tests/collector/test_topological_inventory.py lines 95-121): follow the
next link, each time prefixed with the service host, until a response has
none, concatenating each response's data in call order. `fuel` bounds the
loop so the embedding is total; the first component is the list of URLs
requested, in request order. -/
def collectPages (service : Service) (fetch : String → LinkPage) :
    Nat → String → List String × List Nat
  | 0, _ => ([], [])
  | fuel + 1, url =>
    let page := fetch url
    match page.next with
    | none => ([url], page.data)
    | some nxt =>
      let rest := collectPages service fetch fuel (service.host ++ nxt)
      (url :: rest.1, page.data ++ rest.2)

/-- Modelled from the spec: entry point of the link-based fetch of
collector/topological_inventory.py (absent from src/): start at
host/path/url and follow next links. -/
def collectData (service : Service) (fetch : String → LinkPage)
    (fuel : Nat) (path : String) : List String × List Nat :=
  collectPages service fetch fuel (entryUrl service path)

/-! ## Records and foreign-key injection (collector topological_inventory) -/

/-- A record field value: the repository's records hold ints and strings. -/
inductive FVal where
  | n (v : Nat)
  | s (v : String)
deriving DecidableEq, Repr

/-- A record: an ordered mapping of field name to value, embedding a Python
dict with insertion order. -/
abbrev Rec := List (String × FVal)

/-- First value bound to a key, as Python dict lookup. -/
def lookupField : Rec → String → Option FVal
  | [], _ => none
  | (k, v) :: rest, key => if k = key then some v else lookupField rest key

/-- Python dict set semantics on an ordered record: overwrite the key in
place when it exists, append the pair at the end otherwise. -/
def setField : Rec → String → FVal → Rec
  | [], key, v => [(key, v)]
  | (k, w) :: rest, key, v =>
    if k = key then (key, v) :: rest else (k, w) :: setField rest key v

/-- Modelled from the spec: foreign-key injection of
collector/topological_inventory.py (absent from src/, exercised by
src/tests/collector/test_topological_inventory.py lines 44-73): with both a
key name and a value, write the value under that key into a copy of every
record; with either missing, return the records unchanged. -/
def updateFk (records : List Rec) (fkName : Option String) (fkValue : Option FVal) :
    List Rec :=
  match fkName, fkValue with
  | some k, some v => records.map fun r => setField r k v
  | _, _ => records

/-! ## Sub-collection join (collector topological_inventory, def querySubCollection) -/

/-- An EntityDescriptor from the static catalog: each field is optional so
that a descriptor missing a required key is representable. -/
structure Entity where
  main_collection : Option String
  sub_collection : Option String
  foreign_key : Option String
deriving DecidableEq, Repr

/-- Failure of sub-collection resolution: a descriptor missing a required
field (the spec's ConfigurationError, KeyError in the reference tests), or a
main record without an id. -/
inductive JoinError where
  | configuration
  | missingId
deriving DecidableEq, Repr

/-- Render a field value into a URL segment, as Python string formatting. -/
def fvalStr : FVal → String
  | FVal.n v => toString v
  | FVal.s v => v

/-- Nested fetch path for one parent: mainCollection/id/subCollection. -/
def subPath (main sub : String) (idv : FVal) : String :=
  main ++ "/" ++ fvalStr idv ++ "/" ++ sub

/-- Modelled from the spec: the per-parent loop of the sub-collection join of
collector/topological_inventory.py (absent from src/): for every main record
in order, read its id, fetch mainCollection/id/subCollection, inject the
foreign key, and concatenate. The first component of a successful result is
the list of fetch paths issued, in order. -/
def subJoinGo (main sub fk : String) (fetch : String → List Rec) :
    List Rec → Except JoinError (List String × List Rec)
  | [] => Except.ok ([], [])
  | p :: ps =>
    match lookupField p "id" with
    | none => Except.error JoinError.missingId
    | some idv =>
      let path := subPath main sub idv
      let subs := updateFk (fetch path) (some fk) (some idv)
      match subJoinGo main sub fk fetch ps with
      | Except.error e => Except.error e
      | Except.ok (paths, out) => Except.ok (path :: paths, subs ++ out)

/-- Modelled from the spec: sub-collection resolution of
collector/topological_inventory.py (absent from src/, exercised by
src/tests/collector/test_topological_inventory.py lines 187-298): require
all three of main_collection, sub_collection, foreign_key before any fetch,
take the main records from the already-collected data keyed by the main
collection name, and join. -/
def querySubCollection (entity : Entity) (data : String → List Rec)
    (fetch : String → List Rec) : Except JoinError (List String × List Rec) :=
  match entity.main_collection, entity.sub_collection, entity.foreign_key with
  | some main, some sub, some fk => subJoinGo main sub fk fetch (data main)
  | _, _, _ => Except.error JoinError.configuration

/-- Concrete descriptor of
src/tests/collector/test_topological_inventory.py lines 255-273. -/
def c4Entity : Entity := ⟨some "x", some "y", some "fk_x"⟩

/-- Concrete main-collection data: three parents with ids 1, 2, 3. -/
def c4Data : String → List Rec := fun c =>
  if c = "x" then
    [[("id", FVal.n 1), ("name", FVal.s "main_1")],
     [("id", FVal.n 2), ("name", FVal.s "main_1")],
     [("id", FVal.n 3), ("name", FVal.s "main_1")]]
  else []

/-- Concrete per-parent sub-collection responses s4, s5, s6. -/
def c4Fetch : String → List Rec := fun path =>
  if path = "x/1/y" then [[("id", FVal.n 4), ("name", FVal.s "sub_4")]]
  else if path = "x/2/y" then [[("id", FVal.n 5), ("name", FVal.s "sub_5")]]
  else if path = "x/3/y" then [[("id", FVal.n 6), ("name", FVal.s "sub_6")]]
  else []

/-- The id field of a record, defaulting for records without one. -/
def recId (p : Rec) : FVal := (lookupField p "id").getD (FVal.n 0)

/-! ## Multi-collection orchestration (collector topological_inventory) -/

/-- Outcome of one topological job: a payload posted to the destination, an
early stop on an empty collection, or a catalog name without a
descriptor. -/
inductive JobOutcome where
  | posted (payload : List (String × List Rec))
  | incomplete
  | badConfig
deriving DecidableEq, Repr

/-- Modelled from the spec: the catalog loop of topological_inventory_data
in collector/topological_inventory.py (absent from src/, exercised by
src/tests/collector/test_topological_inventory.py lines 356-492): walk the
ordered catalog names, look each up in the descriptor table, resolve it, and
stop at the first empty result. The first component lists the names for
which resolution was invoked, in order. -/
def collectEntities (queries : List (String × Entity)) (resolve : String → List Rec) :
    List String → List String × JobOutcome
  | [] => ([], JobOutcome.posted [])
  | name :: rest =>
    match queries.lookup name with
    | none => ([], JobOutcome.badConfig)
    | some _ =>
      let rs := resolve name
      if rs.isEmpty then ([name], JobOutcome.incomplete)
      else
        let next := collectEntities queries resolve rest
        (name :: next.1,
         match next.2 with
         | JobOutcome.posted acc => JobOutcome.posted ((name, rs) :: acc)
         | o => o)

/-- Modelled from the spec: topological_inventory_data assembles the per-name
results and performs the single forward POST only when every collection
resolved non-empty; the second component is the list of POST bodies sent. -/
def topologicalInventoryData (queries : List (String × Entity))
    (appConfig : List String) (resolve : String → List Rec) :
    List String × List (List (String × List Rec)) :=
  let run := collectEntities queries resolve appConfig
  (run.1,
   match run.2 with
   | JobOutcome.posted payload => [payload]
   | _ => [])

/-- The descriptor catalog of the reference tests
(src/tests/collector/test_topological_inventory.py lines 359-386). -/
def c3Queries : List (String × Entity) :=
  [("a", ⟨some "a", none, none⟩),
   ("b", ⟨some "b", none, none⟩),
   ("sub_of_a", ⟨some "a", some "sub", some "a_id"⟩)]

/-- Resolution oracle of the second test_no_data case: collection a yields
one record, collection b yields none. -/
def c3Resolve : String → List Rec := fun n =>
  if n = "a" then [[("id", FVal.n 1)]] else []

/-! ## Tenant identity blob (collector topological_inventory create_tenant,
decoded by src/server.py lines 110-111) -/

/-- Byte view of a string of ASCII characters. -/
def asciiBytes (s : String) : List Nat := s.data.map Char.toNat

/-- Decimal digit bytes of n, most significant first, with explicit fuel so
the definition reduces by iota; fuel n + 1 always suffices. -/
def natDigitsAux : Nat → Nat → List Nat
  | 0, _ => []
  | fuel + 1, n =>
    if n < 10 then [48 + n] else natDigitsAux fuel (n / 10) ++ [48 + n % 10]

/-- Decimal digit bytes of n, as Python str(n) / json.dumps renders an
int. -/
def natDigits (n : Nat) : List Nat := natDigitsAux (n + 1) n

/-- Ten to the number of decimal digits of n. -/
def tenPow (n : Nat) : Nat :=
  if n < 10 then 10 else tenPow (n / 10) * 10
termination_by n
decreasing_by simp_wf; omega

/-- The 32 bytes preceding the account number in the identity JSON. -/
def identityPre : List Nat :=
  asciiBytes "\x7b\"identity\": \x7b\"account_number\": "

/-- The 2 closing bytes of the identity JSON. -/
def identitySuf : List Nat := asciiBytes "\x7d\x7d"

/-- Byte rendering of the identity JSON object for an account id, as
Python json.dumps produces it. -/
def identityJson (accountId : Nat) : List Nat :=
  identityPre ++ natDigits accountId ++ identitySuf

/-- Base64 value of a six-bit group, standard alphabet. -/
def sextetToChar (i : Nat) : Nat :=
  if i < 26 then 65 + i
  else if i < 52 then 97 + (i - 26)
  else if i < 62 then 48 + (i - 52)
  else if i = 62 then 43
  else 47

/-- Inverse of the base64 alphabet on its image. -/
def charToSextet (c : Nat) : Nat :=
  if 65 ≤ c ∧ c ≤ 90 then c - 65
  else if 97 ≤ c ∧ c ≤ 122 then c - 97 + 26
  else if 48 ≤ c ∧ c ≤ 57 then c - 48 + 52
  else if c = 43 then 62
  else 63

/-- Standard base64 of a byte list, with '=' (61) padding, as Python
base64.b64encode. -/
def b64encode : List Nat → List Nat
  | [] => []
  | [a] => [sextetToChar (a / 4), sextetToChar (a % 4 * 16), 61, 61]
  | [a, b] => [sextetToChar (a / 4), sextetToChar (a % 4 * 16 + b / 16),
               sextetToChar (b % 16 * 4), 61]
  | a :: b :: c :: rest =>
      sextetToChar (a / 4) :: sextetToChar (a % 4 * 16 + b / 16)
        :: sextetToChar (b % 16 * 4 + c / 64) :: sextetToChar (c % 64)
        :: b64encode rest

/-- Standard base64 decoding with '=' padding, as Python base64.b64decode
(src/server.py line 110). -/
def b64decode : List Nat → List Nat
  | c1 :: c2 :: c3 :: c4 :: rest =>
    let s1 := charToSextet c1
    let s2 := charToSextet c2
    if c3 = 61 then [s1 * 4 + s2 / 16]
    else
      let s3 := charToSextet c3
      if c4 = 61 then [s1 * 4 + s2 / 16, s2 % 16 * 16 + s3 / 4]
      else
        let s4 := charToSextet c4
        (s1 * 4 + s2 / 16) :: (s2 % 16 * 16 + s3 / 4) :: (s3 % 4 * 64 + s4)
          :: b64decode rest
  | _ => []

/-- Modelled from the spec: create_tenant of
collector/topological_inventory.py (absent from src/, exercised by
src/tests/collector/test_topological_inventory.py lines 495-527): the
x-rh-identity blob for an account id is the base64 of the identity JSON. -/
def createTenant (accountId : Nat) : List Nat := b64encode (identityJson accountId)

/-- True of a decimal digit byte. -/
def isDigitByte (c : Nat) : Bool := 48 ≤ c && c ≤ 57

/-- Greedy decimal number reader over bytes, returning the value and the
unread remainder; embeds the account_number extraction of src/server.py
line 111 on the fixed identity shape. -/
def readDigits : List Nat → Nat → Nat × List Nat
  | [], acc => (acc, [])
  | c :: rest, acc =>
    if isDigitByte c then readDigits rest (acc * 10 + (c - 48)) else (acc, c :: rest)

/-- Remove an expected leading byte run, or fail. -/
def dropLead : List Nat → List Nat → Option (List Nat)
  | [], rest => some rest
  | _ :: _, [] => none
  | p :: ps, c :: cs => if c = p then dropLead ps cs else none

/-- Parse the identity JSON shape and return identity.account_number,
embedding json.loads followed by the two .get calls of src/server.py
lines 110-111 on the blob shape under verification. -/
def parseIdentity (bs : List Nat) : Option Nat :=
  match dropLead identityPre bs with
  | none => none
  | some rest =>
    match rest with
    | [] => none
    | c :: _ =>
      if isDigitByte c then
        let out := readDigits rest 0
        if out.2 = identitySuf then some out.1 else none
      else none

/-! ## Processed cache (collector utils set_processed / processed) -/

/-- One set-with-expiry operation sent to the shared key-value store. -/
structure CacheOp where
  key : Nat
  value : Nat
  ex : Nat
deriving DecidableEq, Repr

/-- The shared store: entries mapping a key to its absolute expiry
instant. -/
abbrev Store := List (Nat × Nat)

/-- Modelled from the spec: set_processed of collector/utils.py (absent from
src/, exercised by src/tests/collector/test_utils.py lines 32-38): a single
Redis set(key, 1, ex=PROCESS_WINDOW). The first component is the operation
trace issued to the store, the second the store afterwards, with the fresh
entry expiring PROCESS_WINDOW seconds after now. -/
def setProcessed (PROCESS_WINDOW : Nat) (store : Store) (now acct : Nat) :
    List CacheOp × Store :=
  ([⟨acct, 1, PROCESS_WINDOW⟩],
   (acct, now + PROCESS_WINDOW) :: store.filter fun e => e.1 ≠ acct)

/-- Modelled from the spec: processed of collector/utils.py: whether an
unexpired entry for the key is present. -/
def processed (store : Store) (now acct : Nat) : Bool :=
  store.any fun e => e.1 = acct && now < e.2

/-! ## Topology inventory client (src/topology_inventory/topology_inventory.py) -/

/-- JSON values as returned by response.json(). -/
inductive Json where
  | null
  | num (n : Nat)
  | str (s : String)
  | arr (xs : List Json)
  | obj (fields : List (String × Json))

/-- Whether a JSON value is a list. -/
def Json.isArr : Json → Bool
  | Json.arr _ => true
  | _ => false

/-- An HTTP response as query_path sees it: a status code and the result of
JSON-decoding the body, none standing for a body that is not valid JSON. -/
structure HttpResponse where
  status : Nat
  body : Option Json

/-- Error raised by response.raise_for_status on an error status. -/
inductive HttpStatusError where
  | status (code : Nat)

/-- Shallow embedding of TopologyInventoryClient.query_path
(src/topology_inventory/topology_inventory.py lines 60-81): an error status
raises; otherwise a body that fails JSON decoding returns none (Python None)
rather than raising, a list body passes through unchanged, and any other
body is wrapped into a singleton list. -/
def query_path (resp : HttpResponse) : Except HttpStatusError (Option (List Json)) :=
  if 400 ≤ resp.status then Except.error (HttpStatusError.status resp.status)
  else
    match resp.body with
    | none => Except.ok none
    | some (Json.arr xs) => Except.ok (some xs)
    | some v => Except.ok (some [v])

/-! ## Theorems -/

theorem retryLoop_calls_le (oracle : Nat → HttpOutcome) :
    ∀ attempt fuel, (retryLoop oracle attempt fuel).1 ≤ fuel := by
  intro attempt fuel
  induction fuel generalizing attempt with
  | zero => simp [retryLoop]
  | succ f ih =>
    simp only [retryLoop]
    cases oracle attempt with
    | ok r => simp
    | err => simpa using Nat.succ_le_succ (ih (attempt + 1))

theorem retryLoop_all_fail (oracle : Nat → HttpOutcome) :
    ∀ attempt fuel, (∀ i, i < fuel → oracle (attempt + i) = HttpOutcome.err) →
      retryLoop oracle attempt fuel = (fuel, Except.error TransportError.exhausted) := by
  intro attempt fuel
  induction fuel generalizing attempt with
  | zero => intro _; simp [retryLoop]
  | succ f ih =>
    intro h
    have h0 : oracle attempt = HttpOutcome.err := by
      simpa using h 0 (Nat.succ_pos f)
    simp only [retryLoop, h0]
    have hrec := ih (attempt + 1) (by
      intro i hi
      have := h (i + 1) (by omega)
      simpa [Nat.add_assoc, Nat.add_comm 1 i] using this)
    simp [hrec]

theorem retryLoop_first_success (oracle : Nat → HttpOutcome) :
    ∀ attempt fuel k r, k < fuel → oracle (attempt + k) = HttpOutcome.ok r →
      (∀ i, i < k → oracle (attempt + i) = HttpOutcome.err) →
      retryLoop oracle attempt fuel = (k + 1, Except.ok r) := by
  intro attempt fuel
  induction fuel generalizing attempt with
  | zero => intro k r hk; omega
  | succ f ih =>
    intro k r hk hok hbefore
    cases k with
    | zero =>
      simp only [Nat.add_zero] at hok
      simp [retryLoop, hok]
    | succ k =>
      have h0 : oracle attempt = HttpOutcome.err := by
        simpa using hbefore 0 (Nat.succ_pos k)
      simp only [retryLoop, h0]
      have hrec := ih (attempt + 1) k r (by omega)
        (by simpa [Nat.add_assoc, Nat.add_comm 1 k] using hok)
        (by
          intro i hi
          have := hbefore (i + 1) (by omega)
          simpa [Nat.add_assoc, Nat.add_comm 1 i] using this)
      simp [hrec]

/-- C1: the retrying transport attempts each request at most MAX_RETRIES
times (MAX_RETRIES > 1); on sustained failure it performs exactly
MAX_RETRIES attempts and then fails exhausted; if the first success is at
attempt k it returns that response after exactly k + 1 calls — in
particular exactly one call when the first attempt succeeds. -/
theorem C1_transport_retry (oracle : Nat → HttpOutcome) :
    1 < MAX_RETRIES
    ∧ (retryable oracle).1 ≤ MAX_RETRIES
    ∧ ((∀ i, i < MAX_RETRIES → oracle i = HttpOutcome.err) →
        retryable oracle = (MAX_RETRIES, Except.error TransportError.exhausted))
    ∧ (∀ k r, k < MAX_RETRIES → oracle k = HttpOutcome.ok r →
        (∀ i, i < k → oracle i = HttpOutcome.err) →
        retryable oracle = (k + 1, Except.ok r)) := by
  refine ⟨by decide, retryLoop_calls_le oracle 0 MAX_RETRIES, ?_, ?_⟩
  · intro h
    exact retryLoop_all_fail oracle 0 MAX_RETRIES (by simpa using h)
  · intro k r hk hok hbefore
    exact retryLoop_first_success oracle 0 MAX_RETRIES k r hk
      (by simpa using hok) (by simpa using hbefore)

/-- C1 witness: a concrete always-failing oracle exhausts the budget after
exactly MAX_RETRIES calls, and an oracle succeeding on the first attempt
returns that response after exactly one call. -/
theorem C1_transport_retry_witness :
    retryable (fun _ => HttpOutcome.err)
        = (MAX_RETRIES, Except.error TransportError.exhausted)
    ∧ retryable (fun i => if i = 0 then HttpOutcome.ok 7 else HttpOutcome.err)
        = (1, Except.ok 7) := by
  constructor
  · exact (C1_transport_retry (fun _ => HttpOutcome.err)).2.2.1 (fun i _ => rfl)
  · exact (C1_transport_retry
      (fun i => if i = 0 then HttpOutcome.ok 7 else HttpOutcome.err)).2.2.2 0 7
      (by decide) (by decide) (fun i hi => absurd hi (Nat.not_lt_zero i))

theorem foldl_append_join (f : Nat → List Nat) :
    ∀ (l : List Nat) (init : List Nat),
      l.foldl (fun acc p => acc ++ f p) init = init ++ (l.map f).flatten := by
  intro l
  induction l with
  | nil => intro init; simp
  | cons x xs ih => intro init; simp [List.foldl, ih, List.append_assoc]

theorem ceilDiv_le_of_le (a b m : Nat) (hb : 0 < b) (h : a ≤ m * b) :
    ceilDiv a b ≤ m := by
  have hlt : a + b - 1 < (m + 1) * b → (a + b - 1) / b ≤ m := by
    intro hx
    have := (Nat.div_lt_iff_lt_mul hb).2 hx
    omega
  unfold ceilDiv
  apply hlt
  have : (m + 1) * b = m * b + b := by ring
  omega

theorem le_ceilDiv_mul (a b : Nat) (hb : 0 < b) : a ≤ ceilDiv a b * b := by
  have hmod := Nat.div_add_mod (a + b - 1) b
  have hr : (a + b - 1) % b < b := Nat.mod_lt _ hb
  unfold ceilDiv
  rw [Nat.mul_comm]
  rcases Nat.eq_zero_or_pos a with ha | ha
  · simp [ha]
  · omega

/-- C2: count-based fetch requests page 1, then exactly the pages in the
half-open range from 2 to pageCount (that is, List.range' 2 (pageCount - 2)),
where pageCount is the least m covering total with m * per_page; the returned
results are the concatenation of the fetched pages' results in request
order. -/
theorem C2_count_pagination (fetch : Nat → CountPage)
    (hpp : 0 < (fetch 1).per_page) :
    ((fetch 1).total ≤ ceilDiv (fetch 1).total (fetch 1).per_page * (fetch 1).per_page
      ∧ ∀ m, (fetch 1).total ≤ m * (fetch 1).per_page →
          ceilDiv (fetch 1).total (fetch 1).per_page ≤ m)
    ∧ (retrieveHosts fetch).1
        = 1 :: List.range' 2 (ceilDiv (fetch 1).total (fetch 1).per_page - 2)
    ∧ (retrieveHosts fetch).2
        = (fetch 1).results
          ++ ((List.range' 2 (ceilDiv (fetch 1).total (fetch 1).per_page - 2)).map
                (fun p => (fetch p).results)).flatten := by
  refine ⟨⟨le_ceilDiv_mul _ _ hpp, fun m hm => ceilDiv_le_of_le _ _ m hpp hm⟩, rfl, ?_⟩
  simp only [retrieveHosts]
  exact foldl_append_join _ _ _

/-- C2 witness: with total = 25 and per_page = 10 (pageCount = 3) the fetcher
requests page 1 and page 2 only, and returns page 1's results followed by
page 2's. -/
theorem C2_count_pagination_witness :
    (retrieveHosts (fun p =>
        if p = 1 then ⟨[10, 11], 25, 10⟩
        else if p = 2 then ⟨[12], 25, 10⟩ else ⟨[], 25, 10⟩)).1 = [1, 2]
    ∧ (retrieveHosts (fun p =>
        if p = 1 then ⟨[10, 11], 25, 10⟩
        else if p = 2 then ⟨[12], 25, 10⟩ else ⟨[], 25, 10⟩)).2 = [10, 11, 12] := by
  have h := C2_count_pagination (fun p =>
      if p = 1 then ⟨[10, 11], 25, 10⟩
      else if p = 2 then ⟨[12], 25, 10⟩ else ⟨[], 25, 10⟩) (by decide)
  exact ⟨by rw [h.2.1]; rfl, by rw [h.2.2]; rfl⟩

/-- C6: a link-based fetch stops exactly when a response carries no next
link, and over two chained responses it issues exactly two requests, in
order, and returns the concatenation of both pages' records in call
order. -/
theorem C6_link_pagination (service : Service) (fetch : String → LinkPage)
    (fuel : Nat) (path : String) (d1 d2 : List Nat) (nxt : String)
    (h1 : fetch (entryUrl service path) = ⟨d1, some nxt⟩)
    (h2 : fetch (service.host ++ nxt) = ⟨d2, none⟩)
    (hf : 2 ≤ fuel) :
    (∀ u f, (fetch u).next = none →
        collectPages service fetch (f + 1) u = ([u], (fetch u).data))
    ∧ collectData service fetch fuel path
        = ([entryUrl service path, service.host ++ nxt], d1 ++ d2) := by
  constructor
  · intro u f h
    simp [collectPages, h]
  · obtain ⟨f, rfl⟩ : ∃ f, fuel = f + 2 := ⟨fuel - 2, by omega⟩
    simp [collectData, collectPages, h1, h2]

/-- C6 witness: the two chained pages of
src/tests/collector/test_topological_inventory.py lines 95-121. -/
theorem C6_link_pagination_witness :
    collectData ⟨"host", "path"⟩
      (fun u =>
        if u = "host/path/url" then ⟨[0, 1, 2], some "/next_page"⟩
        else if u = "host/next_page" then ⟨[3, 4, 5], none⟩
        else ⟨[], none⟩) 2 "url"
      = (["host/path/url", "host/next_page"], [0, 1, 2, 3, 4, 5]) := by
  have h := (C6_link_pagination ⟨"host", "path"⟩
      (fun u =>
        if u = "host/path/url" then ⟨[0, 1, 2], some "/next_page"⟩
        else if u = "host/next_page" then ⟨[3, 4, 5], none⟩
        else ⟨[], none⟩) 2 "url" [0, 1, 2] [3, 4, 5] "/next_page"
      (by decide) (by decide) (by decide)).2
  rw [h]; rfl

/-- C10: foreign-key injection with a missing key name or a missing value is
the identity on the record list. -/
theorem C10_update_fk_missing_identity (records : List Rec)
    (fkName : Option String) (fkValue : Option FVal)
    (h : fkName = none ∨ fkValue = none) :
    updateFk records fkName fkValue = records := by
  rcases h with h | h
  · subst h; cases fkValue <;> rfl
  · subst h; cases fkName <;> rfl

/-- C10 witness: the record of
src/tests/collector/test_topological_inventory.py lines 47-59, unchanged
under a missing key name and under a missing value. -/
theorem C10_update_fk_missing_identity_witness :
    updateFk [[("id", FVal.n 1), ("name", FVal.s "X"), ("fk", FVal.n 2)]]
        none (some (FVal.n 3))
      = [[("id", FVal.n 1), ("name", FVal.s "X"), ("fk", FVal.n 2)]]
    ∧ updateFk [[("id", FVal.n 1), ("name", FVal.s "X"), ("fk", FVal.n 2)]]
        (some "fk") none
      = [[("id", FVal.n 1), ("name", FVal.s "X"), ("fk", FVal.n 2)]] :=
  ⟨C10_update_fk_missing_identity _ none (some (FVal.n 3)) (Or.inl rfl),
   C10_update_fk_missing_identity _ (some "fk") none (Or.inr rfl)⟩

theorem lookupField_setField_self (r : Rec) (key : String) (v : FVal) :
    lookupField (setField r key v) key = some v := by
  induction r with
  | nil => simp [setField, lookupField]
  | cons hd tl ih =>
    obtain ⟨k, w⟩ := hd
    by_cases hk : k = key
    · simp [setField, hk, lookupField]
    · simp [setField, hk, lookupField, ih]

theorem lookupField_setField_other (r : Rec) (key key1 : String) (v : FVal)
    (hne : key1 ≠ key) :
    lookupField (setField r key v) key1 = lookupField r key1 := by
  induction r with
  | nil => simp [setField, lookupField, Ne.symm hne]
  | cons hd tl ih =>
    obtain ⟨k, w⟩ := hd
    by_cases hk : k = key
    · subst hk
      simp [setField, lookupField, Ne.symm hne]
    · simp [setField, hk, lookupField, ih]

theorem subJoinGo_spec (main sub fk : String) (fetch : String → List Rec)
    (pid : Rec → FVal) :
    ∀ parents : List Rec,
      (∀ p ∈ parents, lookupField p "id" = some (pid p)) →
      subJoinGo main sub fk fetch parents
        = Except.ok
            (parents.map fun p => subPath main sub (pid p),
             (parents.map fun p =>
                (fetch (subPath main sub (pid p))).map fun s0 =>
                  setField s0 fk (pid p)).flatten) := by
  intro parents
  induction parents with
  | nil => intro _; rfl
  | cons p ps ih =>
    intro h
    have hp : lookupField p "id" = some (pid p) := h p (List.mem_cons_self p ps)
    have hps := ih fun q hq => h q (List.mem_cons_of_mem p hq)
    simp [subJoinGo, hp, hps, updateFk]

/-- C4: with all three descriptor fields present and every main record
carrying an id, the join issues one nested fetch per main record, in
main-collection order, at path mainCollection/id/subCollection; the output
is the concatenation across parents, in that order, of the fetched
sub-records with the parent id written under the foreign key; injection
preserves every other original field of a sub-record. -/
theorem C4_sub_collection_join (entity : Entity) (main sub fk : String)
    (data : String → List Rec) (fetch : String → List Rec) (pid : Rec → FVal)
    (hm : entity.main_collection = some main)
    (hs : entity.sub_collection = some sub)
    (hf : entity.foreign_key = some fk)
    (hid : ∀ p ∈ data main, lookupField p "id" = some (pid p)) :
    querySubCollection entity data fetch
      = Except.ok
          ((data main).map fun p => subPath main sub (pid p),
           ((data main).map fun p =>
              (fetch (subPath main sub (pid p))).map fun s0 =>
                setField s0 fk (pid p)).flatten)
    ∧ (∀ r v, lookupField (setField r fk v) fk = some v)
    ∧ (∀ r v key, key ≠ fk → lookupField (setField r fk v) key = lookupField r key) := by
  refine ⟨?_, fun r v => lookupField_setField_self r fk v,
    fun r v key hk => lookupField_setField_other r fk key v hk⟩
  cases entity with
  | mk m s f =>
    simp only [Entity.main_collection] at hm
    simp only [Entity.sub_collection] at hs
    simp only [Entity.foreign_key] at hf
    subst hm; subst hs; subst hf
    simpa only [querySubCollection] using subJoinGo_spec main sub fk fetch pid (data main) hid

/-- C4 witness: parents with ids 1, 2, 3 and per-parent sub-results s4, s5,
s6 produce one fetch per parent, in order, and the joined output
s4 + fk 1, s5 + fk 2, s6 + fk 3, each with its original fields kept. -/
theorem C4_sub_collection_join_witness :
    querySubCollection c4Entity c4Data c4Fetch
      = Except.ok
          (["x/1/y", "x/2/y", "x/3/y"],
           [[("id", FVal.n 4), ("name", FVal.s "sub_4"), ("fk_x", FVal.n 1)],
            [("id", FVal.n 5), ("name", FVal.s "sub_5"), ("fk_x", FVal.n 2)],
            [("id", FVal.n 6), ("name", FVal.s "sub_6"), ("fk_x", FVal.n 3)]]) := by
  have h := (C4_sub_collection_join c4Entity "x" "y" "fk_x" c4Data c4Fetch recId
      rfl rfl rfl (by decide)).1
  rw [h]; rfl

/-- C5: a descriptor requesting sub-collection behavior with any of
main_collection, sub_collection, foreign_key missing resolves to the
configuration error, independently of the collected data and of the fetch
oracle — so before, and without, any network call. -/
theorem C5_missing_entity_fields (entity : Entity)
    (h : entity.main_collection = none ∨ entity.sub_collection = none
          ∨ entity.foreign_key = none) :
    ∀ data fetch, querySubCollection entity data fetch
      = Except.error JoinError.configuration := by
  intro data fetch
  obtain ⟨m, s, f⟩ := entity
  rcases h with h | h | h
  · cases m with
    | none => cases s <;> cases f <;> rfl
    | some a => exact Option.noConfusion h
  · cases s with
    | none => cases m <;> cases f <;> rfl
    | some a => exact Option.noConfusion h
  · cases f with
    | none => cases m <;> cases s <;> rfl
    | some a => exact Option.noConfusion h

/-- C5 witness: the descriptor missing its sub_collection from
src/tests/collector/test_topological_inventory.py lines 275-283 fails with
the configuration error under arbitrary oracles. -/
theorem C5_missing_entity_fields_witness :
    querySubCollection ⟨some "x", none, some "fk"⟩ (fun _ => []) (fun _ => [])
      = Except.error JoinError.configuration :=
  C5_missing_entity_fields ⟨some "x", none, some "fk"⟩ (Or.inr (Or.inl rfl))
    (fun _ => []) (fun _ => [])

theorem collectEntities_stops_at_empty (queries : List (String × Entity))
    (resolve : String → List Rec) (bad : String) (post : List String)
    (hbadq : (queries.lookup bad).isSome) (hbad : resolve bad = []) :
    ∀ pre : List String,
      (∀ n ∈ pre, (queries.lookup n).isSome ∧ resolve n ≠ []) →
      collectEntities queries resolve (pre ++ bad :: post)
        = (pre ++ [bad], JobOutcome.incomplete) := by
  intro pre
  induction pre with
  | nil =>
    intro _
    obtain ⟨e, he⟩ := Option.isSome_iff_exists.mp hbadq
    simp [collectEntities, he, hbad]
  | cons n pre ih =>
    intro h
    obtain ⟨hq, hr⟩ := h n (List.mem_cons_self n pre)
    obtain ⟨e, he⟩ := Option.isSome_iff_exists.mp hq
    have hne : (resolve n).isEmpty = false := by
      cases hx : resolve n with
      | nil => exact absurd hx hr
      | cons a l => rfl
    have hrec := ih fun q hq2 => h q (List.mem_cons_of_mem n hq2)
    simp [collectEntities, he, hne, hrec]

theorem collectEntities_posted_all_nonempty (queries : List (String × Entity))
    (resolve : String → List Rec) :
    ∀ (cfg : List String) (acc : List (String × List Rec)),
      (collectEntities queries resolve cfg).2 = JobOutcome.posted acc →
      ∀ n ∈ cfg, resolve n ≠ [] := by
  intro cfg
  induction cfg with
  | nil => intro acc _ n hn; exact absurd hn (List.not_mem_nil n)
  | cons name rest ih =>
    intro acc h n hn
    rcases hq : queries.lookup name with _ | e
    · rw [show collectEntities queries resolve (name :: rest)
          = ([], JobOutcome.badConfig) by simp [collectEntities, hq]] at h
      exact absurd h (by simp)
    · rcases hre : (resolve name).isEmpty with _ | _
      · have hunfold : collectEntities queries resolve (name :: rest)
            = (name :: (collectEntities queries resolve rest).1,
               match (collectEntities queries resolve rest).2 with
               | JobOutcome.posted acc2 => JobOutcome.posted ((name, resolve name) :: acc2)
               | o => o) := by
          simp [collectEntities, hq, hre]
        rw [hunfold] at h
        rcases hrest : (collectEntities queries resolve rest).2 with acc2 | _ | _
        · rcases List.mem_cons.mp hn with rfl | hn2
          · intro hc
            rw [hc] at hre
            simp [List.isEmpty] at hre
          · exact ih acc2 hrest n hn2
        · rw [hrest] at h; exact absurd h (by simp)
        · rw [hrest] at h; exact absurd h (by simp)
      · rw [show collectEntities queries resolve (name :: rest)
            = ([name], JobOutcome.incomplete) by simp [collectEntities, hq, hre]] at h
        exact absurd h (by simp)

/-- C3: in a multi-collection job over an ordered catalog, a forward POST
happens only if every referenced collection resolved to at least one
record; when the catalog is pre ++ bad :: post with every name of pre
resolving non-empty and bad resolving empty, the orchestration resolves
exactly pre ++ [bad] — stopping before the remaining entries — and performs
zero forward calls. -/
theorem C3_empty_collection_aborts (queries : List (String × Entity))
    (resolve : String → List Rec) (pre post : List String) (bad : String)
    (hpre : ∀ n ∈ pre, (queries.lookup n).isSome ∧ resolve n ≠ [])
    (hbadq : (queries.lookup bad).isSome)
    (hbad : resolve bad = []) :
    (topologicalInventoryData queries (pre ++ bad :: post) resolve).1 = pre ++ [bad]
    ∧ (topologicalInventoryData queries (pre ++ bad :: post) resolve).2 = []
    ∧ ∀ cfg payload,
        (topologicalInventoryData queries cfg resolve).2 = [payload] →
        ∀ n ∈ cfg, resolve n ≠ [] := by
  have hstop := collectEntities_stops_at_empty queries resolve bad post hbadq hbad pre hpre
  refine ⟨by simp [topologicalInventoryData, hstop], by simp [topologicalInventoryData, hstop], ?_⟩
  intro cfg payload h n hn
  rcases hrun : (collectEntities queries resolve cfg).2 with acc | _ | _
  · exact collectEntities_posted_all_nonempty queries resolve cfg acc hrun n hn
  · rw [show (topologicalInventoryData queries cfg resolve).2 = []
        by simp [topologicalInventoryData, hrun]] at h
    exact absurd h (by simp)
  · rw [show (topologicalInventoryData queries cfg resolve).2 = []
        by simp [topologicalInventoryData, hrun]] at h
    exact absurd h (by simp)

/-- C3 witness: with catalog order a, b, sub_of_a where b resolves empty,
resolution is invoked for a and b only and zero forward POSTs happen. -/
theorem C3_empty_collection_aborts_witness :
    (topologicalInventoryData c3Queries ["a", "b", "sub_of_a"] c3Resolve).1 = ["a", "b"]
    ∧ (topologicalInventoryData c3Queries ["a", "b", "sub_of_a"] c3Resolve).2 = [] := by
  have h := C3_empty_collection_aborts c3Queries c3Resolve ["a"] ["sub_of_a"] "b"
    (by decide) (by decide) (by decide)
  exact ⟨h.1, h.2.1⟩

theorem charToSextet_sextetToChar : ∀ i, i < 64 → charToSextet (sextetToChar i) = i := by
  decide

theorem sextetToChar_ne_pad : ∀ i, i < 64 → sextetToChar i ≠ 61 := by
  decide

theorem b64decode_encode (bs : List Nat) (h : ∀ x ∈ bs, x < 256) :
    b64decode (b64encode bs) = bs := by
  induction bs using b64encode.induct with
  | case1 => rfl
  | case2 a =>
    have ha : a < 256 := h a (by simp)
    have e1 := charToSextet_sextetToChar (a / 4) (by omega)
    have e2 := charToSextet_sextetToChar (a % 4 * 16) (by omega)
    simp only [b64encode, b64decode, if_pos rfl, e1, e2]
    have h1 : a / 4 * 4 + a % 4 * 16 / 16 = a := by omega
    rw [h1]
    simp
  | case3 a b =>
    have ha : a < 256 := h a (by simp)
    have hb : b < 256 := h b (by simp)
    have e1 := charToSextet_sextetToChar (a / 4) (by omega)
    have e2 := charToSextet_sextetToChar (a % 4 * 16 + b / 16) (by omega)
    have e3 := charToSextet_sextetToChar (b % 16 * 4) (by omega)
    have n3 := sextetToChar_ne_pad (b % 16 * 4) (by omega)
    simp only [b64encode, b64decode, if_neg n3, if_pos rfl, e1, e2, e3]
    have h1 : a / 4 * 4 + (a % 4 * 16 + b / 16) / 16 = a := by omega
    have h2 : (a % 4 * 16 + b / 16) % 16 * 16 + b % 16 * 4 / 4 = b := by omega
    rw [h1, h2]
    simp
  | case4 a b c rest ih =>
    have ha : a < 256 := h a (by simp)
    have hb : b < 256 := h b (by simp)
    have hc : c < 256 := h c (by simp)
    have hrest : ∀ x ∈ rest, x < 256 := fun x hx => h x (by simp [hx])
    have e1 := charToSextet_sextetToChar (a / 4) (by omega)
    have e2 := charToSextet_sextetToChar (a % 4 * 16 + b / 16) (by omega)
    have e3 := charToSextet_sextetToChar (b % 16 * 4 + c / 64) (by omega)
    have e4 := charToSextet_sextetToChar (c % 64) (by omega)
    have n3 := sextetToChar_ne_pad (b % 16 * 4 + c / 64) (by omega)
    have n4 := sextetToChar_ne_pad (c % 64) (by omega)
    simp only [b64encode, b64decode, if_neg n3, if_neg n4, e1, e2, e3, e4, ih hrest]
    have h1 : a / 4 * 4 + (a % 4 * 16 + b / 16) / 16 = a := by omega
    have h2 : (a % 4 * 16 + b / 16) % 16 * 16 + (b % 16 * 4 + c / 64) / 4 = b := by omega
    have h3 : (b % 16 * 4 + c / 64) % 4 * 64 + c % 64 = c := by omega
    rw [h1, h2, h3]

theorem natDigitsAux_all_digits :
    ∀ fuel n c, c ∈ natDigitsAux fuel n → isDigitByte c = true := by
  intro fuel
  induction fuel with
  | zero => intro n c hc; exact absurd hc (List.not_mem_nil c)
  | succ f ih =>
    intro n c hc
    by_cases h : n < 10
    · rw [natDigitsAux, if_pos h] at hc
      rcases List.mem_singleton.mp hc with rfl
      simp [isDigitByte]
      omega
    · rw [natDigitsAux, if_neg h] at hc
      rcases List.mem_append.mp hc with hc | hc
      · exact ih (n / 10) c hc
      · rcases List.mem_singleton.mp hc with rfl
        simp [isDigitByte]
        omega

theorem natDigitsAux_ne_nil (fuel n : Nat) : natDigitsAux (fuel + 1) n ≠ [] := by
  by_cases h : n < 10
  · rw [natDigitsAux, if_pos h]; simp
  · rw [natDigitsAux, if_neg h]; simp

theorem foldl_natDigitsAux :
    ∀ fuel n acc, n < fuel →
      List.foldl (fun a c => a * 10 + (c - 48)) acc (natDigitsAux fuel n)
        = acc * tenPow n + n := by
  intro fuel
  induction fuel with
  | zero => intro n acc h; omega
  | succ f ih =>
    intro n acc h
    by_cases h10 : n < 10
    · rw [natDigitsAux, if_pos h10, tenPow, if_pos h10]
      simp [List.foldl]
    · rw [natDigitsAux, if_neg h10, tenPow, if_neg h10]
      rw [List.foldl_append]
      rw [ih (n / 10) acc (by omega)]
      show (acc * tenPow (n / 10) + n / 10) * 10 + (48 + n % 10 - 48)
          = acc * (tenPow (n / 10) * 10) + n
      have hsplit : (acc * tenPow (n / 10) + n / 10) * 10 + (48 + n % 10 - 48)
          = acc * (tenPow (n / 10) * 10) + (n / 10 * 10 + n % 10) := by
        have hm : 48 + n % 10 - 48 = n % 10 := by omega
        rw [hm]; ring
      rw [hsplit]
      have hnm : n / 10 * 10 + n % 10 = n := by omega
      rw [hnm]

theorem readDigits_stop (r : List Nat)
    (hr : r = [] ∨ ∃ c cs, r = c :: cs ∧ isDigitByte c = false) :
    ∀ acc, readDigits r acc = (acc, r) := by
  intro acc
  rcases hr with rfl | ⟨c, cs, rfl, hc⟩
  · rfl
  · rw [readDigits, if_neg (by simp [hc])]

theorem readDigits_digits_append (r : List Nat)
    (hr : ∀ a, readDigits r a = (a, r)) :
    ∀ ds acc, (∀ c ∈ ds, isDigitByte c = true) →
      readDigits (ds ++ r) acc
        = (List.foldl (fun a c => a * 10 + (c - 48)) acc ds, r) := by
  intro ds
  induction ds with
  | nil => intro acc _; simpa using hr acc
  | cons d ds ih =>
    intro acc h
    have hd : isDigitByte d = true := h d (List.mem_cons_self d ds)
    rw [List.cons_append, readDigits, if_pos (by simp [hd])]
    exact ih (acc * 10 + (d - 48)) fun c hc => h c (List.mem_cons_of_mem d hc)

theorem dropLead_append (rest : List Nat) :
    ∀ p : List Nat, dropLead p (p ++ rest) = some rest := by
  intro p
  induction p with
  | nil => rfl
  | cons c cs ih => rw [List.cons_append, dropLead, if_pos rfl, ih]

theorem identitySuf_eq : identitySuf = [125, 125] := rfl

theorem parseIdentity_identityJson (n : Nat) :
    parseIdentity (identityJson n) = some n := by
  have hstop : ∀ a, readDigits identitySuf a = (a, identitySuf) := by
    intro a
    exact readDigits_stop identitySuf (Or.inr ⟨125, [125], identitySuf_eq, by decide⟩) a
  have hdig : ∀ c ∈ natDigits n, isDigitByte c = true :=
    fun c hc => natDigitsAux_all_digits (n + 1) n c hc
  have hread : readDigits (natDigits n ++ identitySuf) 0 = (n, identitySuf) := by
    rw [readDigits_digits_append identitySuf hstop (natDigits n) 0 hdig]
    rw [show natDigits n = natDigitsAux (n + 1) n from rfl]
    rw [foldl_natDigitsAux (n + 1) n 0 (Nat.lt_succ_self n)]
    simp
  unfold parseIdentity identityJson
  rw [List.append_assoc, dropLead_append (natDigits n ++ identitySuf) identityPre]
  rcases hx : natDigits n with _ | ⟨d, ds⟩
  · exact absurd hx (natDigitsAux_ne_nil n n)
  · have hd : isDigitByte d = true := hdig d (by rw [hx]; exact List.mem_cons_self d ds)
    rw [hx, List.cons_append] at hread
    simp only [List.cons_append, if_pos hd, hread, if_pos rfl]
    simp

theorem identityJson_bytes_lt (n : Nat) : ∀ x ∈ identityJson n, x < 256 := by
  intro x hx
  unfold identityJson at hx
  rcases List.mem_append.mp hx with hx | hx
  · rcases List.mem_append.mp hx with hx | hx
    · revert hx
      have : ∀ y ∈ identityPre, y < 256 := by decide
      exact this x
    · have := natDigitsAux_all_digits (n + 1) n x hx
      simp [isDigitByte] at this
      omega
  · revert hx
    have : ∀ y ∈ identitySuf, y < 256 := by decide
    exact this x

/-- C7: for every accountId, the tenant identity blob is base64 of the JSON
object with identity.account_number = accountId: base64-decoding the blob
yields exactly that JSON byte string, parsing it recovers accountId, and
for accountId 42 the blob is exactly the reference base64 string. -/
theorem C7_tenant_identity_blob (accountId : Nat) :
    b64decode (createTenant accountId) = identityJson accountId
    ∧ parseIdentity (b64decode (createTenant accountId)) = some accountId
    ∧ createTenant 42
        = asciiBytes "eyJpZGVudGl0eSI6IHsiYWNjb3VudF9udW1iZXIiOiA0Mn19" := by
  have hdec : b64decode (createTenant accountId) = identityJson accountId :=
    b64decode_encode (identityJson accountId) (identityJson_bytes_lt accountId)
  refine ⟨hdec, ?_, by decide⟩
  rw [hdec]
  exact parseIdentity_identityJson accountId

theorem processed_filtered (acct t : Nat) :
    ∀ store : Store,
      ((store.filter fun e => e.1 ≠ acct).any fun e => e.1 = acct && t < e.2)
        = false := by
  intro store
  induction store with
  | nil => rfl
  | cons hd tl ih =>
    obtain ⟨k, x⟩ := hd
    by_cases hk : k = acct
    · simp [List.filter_cons, hk, ih]
      intro a b _ h1 h2
      exact absurd h2 h1
    · simp [List.filter_cons, hk, ih]
      intro a b _ h1 h2
      exact absurd h2 h1

/-- C8: marking an account processed issues exactly one set-with-expiry
operation, keyed by the account with expiry PROCESS_WINDOW and a bare
presence payload; processed is a boolean reflecting presence of an
unexpired entry for the key, and right after marking it holds exactly until
the expiry instant. -/
theorem C8_processed_cache (PROCESS_WINDOW : Nat) (store : Store) (now acct : Nat) :
    (setProcessed PROCESS_WINDOW store now acct).1
        = [CacheOp.mk acct 1 PROCESS_WINDOW]
    ∧ (∀ (s : Store) (t k : Nat),
        processed s t k = true ↔ ∃ e ∈ s, e.1 = k ∧ t < e.2)
    ∧ ∀ t, processed (setProcessed PROCESS_WINDOW store now acct).2 t acct
        = decide (t < now + PROCESS_WINDOW) := by
  refine ⟨rfl, ?_, ?_⟩
  · intro s t k
    simp [processed, List.any_eq_true]
  · intro t
    simp only [setProcessed, processed, List.any_cons, processed_filtered acct t store,
      Bool.or_false]
    simp

/-- C9: on a successful response, query_path returns a JSON list body
as-is, wraps any non-list body into a single-element list, and turns a body
that fails JSON decoding into None instead of raising. -/
theorem C9_query_path_wrapping (resp : HttpResponse) (hok : resp.status < 400) :
    (resp.body = none → query_path resp = Except.ok none)
    ∧ (∀ xs, resp.body = some (Json.arr xs) → query_path resp = Except.ok (some xs))
    ∧ (∀ v, resp.body = some v → v.isArr = false →
        query_path resp = Except.ok (some [v])) := by
  have hlt : ¬400 ≤ resp.status := by omega
  refine ⟨?_, ?_, ?_⟩
  · intro h; simp [query_path, hlt, h]
  · intro xs h; simp [query_path, hlt, h]
  · intro v h hv
    cases v <;> simp_all [query_path, hlt, Json.isArr]

/-- C9 witness: a scalar body comes back as a singleton list and an invalid
JSON body comes back as None, at status 200. -/
theorem C9_query_path_wrapping_witness :
    query_path ⟨200, some (Json.num 5)⟩ = Except.ok (some [Json.num 5])
    ∧ query_path ⟨200, none⟩ = Except.ok none := by
  constructor
  · exact (C9_query_path_wrapping ⟨200, some (Json.num 5)⟩ (by decide)).2.2
      (Json.num 5) rfl rfl
  · exact (C9_query_path_wrapping ⟨200, none⟩ (by decide)).1 rfl

end AiopsCollector
